import Mathlib

/-!
Shallow embedding of File Privacy Guard (src/FilePG.py) together with proofs
about the claims of its specification.

External tools (gpg, split, mv, rm, stat) and the random source are modelled
by explicit oracle parameters; the working directory is modelled as an
association list from file names to byte sizes.  Python floats are modelled
as rationals, Python string slices as operations on the character list of a
Lean string.
-/

namespace FPG

/-- Configuration constants of FilePG.py (the module-level config block). -/
structure Config where
  CIPHER : String
  DIGEST : String
  DETECTEDFILETYPES : List String
  PASSLENGTH : Nat
  SPLITLIMIT : Nat
  EXT : String
  COMP : String

/-- The configuration values shipped in the source file. -/
def defaultConfig : Config :=
  { CIPHER := "AES256"
    DIGEST := "SHA256"
    DETECTEDFILETYPES := ["bmp", "7z"]
    PASSLENGTH := 20
    SPLITLIMIT := 1
    EXT := ".enc"
    COMP := "0" }

/-- A configuration whose passphrase length is below the safety floor,
used as a concrete input for the validation theorems. -/
def lowPassConfig : Config :=
  { defaultConfig with PASSLENGTH := 5 }

/-- Python slice s[0:n]. -/
def pySlice0 (n : Nat) (s : String) : String :=
  String.mk (s.data.take n)

/-- Python slice s[-3:]: the last three characters, or the whole string when
it is shorter than three characters. -/
def pySliceLast3 (s : String) : String :=
  String.mk (s.data.drop (s.data.length - 3))

/-- Index of the last occurrence of a dot in a character list, if any. -/
def lastDotIdx : List Char → Option Nat
  | [] => none
  | c :: cs =>
    match lastDotIdx cs with
    | some i => some (i + 1)
    | none => if c = '.' then some 0 else none

/-- Python fileName.rfind applied to a dot: the last index, or -1 when the
string has no dot. -/
def pyRfindDot (s : String) : Int :=
  match lastDotIdx s.data with
  | some i => (i : Int)
  | none => -1

/-- The expression fileName[fileName.rfind a dot + 1:] from GuardObj
construction: the substring after the last dot, or the whole name when no
dot exists. -/
def pyExtension (s : String) : String :=
  String.mk (s.data.drop (pyRfindDot s + 1).toNat)

/-- string.ascii_letters, lowercase part. -/
def asciiLowercase : List Char := "abcdefghijklmnopqrstuvwxyz".data

/-- string.ascii_letters, uppercase part. -/
def asciiUppercase : List Char := "ABCDEFGHIJKLMNOPQRSTUVWXYZ".data

/-- string.ascii_letters. -/
def asciiLetters : List Char := asciiLowercase ++ asciiUppercase

/-- string.digits. -/
def digitChars : List Char := "0123456789".data

/-- The alphabet ascii_letters + digits built in GuardObj encryption. -/
def alphabet : List Char := asciiLetters ++ digitChars

/-- secrets.choice: one element of the list, selected by the oracle value.
The modulus makes every oracle value pick a valid index. -/
def pyChoice (l : List Char) (r : Nat) : Char :=
  l.getD (r % l.length) ' '

/-- The passphrase generated in GuardObj encryption: PASSLENGTH independent
draws from the alphanumeric alphabet, driven by the random oracle. -/
def genPassword (cfg : Config) (rand : Nat → Nat) : String :=
  String.mk ((List.range cfg.PASSLENGTH).map (fun i => pyChoice alphabet (rand i)))

/-- The working directory: file names with their byte sizes. -/
abbrev FS : Type := List (String × Nat)

/-- Size of a file in the directory, if present. -/
def fsLookup : FS → String → Option Nat
  | [], _ => none
  | (n, b) :: fs, m => if n = m then some b else fsLookup fs m

/-- Create or overwrite a file. -/
def fsInsert (fs : FS) (n : String) (b : Nat) : FS := (n, b) :: fs

/-- Delete a file (the rm external call). -/
def fsRemove : FS → String → FS
  | [], _ => []
  | (n, b) :: fs, m => if n = m then fsRemove fs m else (n, b) :: fsRemove fs m

/-- GuardObj: one file to be processed by FPG.  The fields mirror the
attributes _fileName, _extension, _fileSize (in MB), _key and _isEncrypted. -/
structure GuardObj where
  fileName : String
  extension : String
  fileSize : ℚ
  key : Option String
  isEncrypted : Bool

/-- A default unit, used only as the fallback of list indexing. -/
def gdefault : GuardObj :=
  { fileName := "", extension := "", fileSize := 0, key := none, isEncrypted := false }

/-- GuardObj construction: records the name, the substring after the last
dot, and the stat byte size divided by 1048576; no key, not encrypted. -/
def GuardObj.init (fileName : String) (statBytes : Nat) : GuardObj :=
  { fileName := fileName
    extension := pyExtension fileName
    fileSize := (statBytes : ℚ) / 1048576
    key := none
    isEncrypted := false }

/-- GuardObj encryption: generates the passphrase and stores it in the key
field, then runs gpg (modelled by the exit flag and the ciphertext byte
size).  Only on a zero exit is the encrypted flag set and the output file
created; on a non-zero exit the exception of check_returncode leaves the
unit with the key already stored and the flag unchanged.  Returns the new
unit, the new directory and the exit flag. -/
def GuardObj.encrypt (g : GuardObj) (cfg : Config) (rand : Nat → Nat)
    (gpgExitOk : Bool) (ctBytes : Nat) (fs : FS) : GuardObj × FS × Bool :=
  let password := genPassword cfg rand
  let g1 : GuardObj := { g with key := some password }
  if gpgExitOk then
    ({ g1 with isEncrypted := true }, fsInsert fs (g.fileName ++ cfg.EXT) ctBytes, true)
  else
    (g1, fs, false)

/-- A decimal digit character (code 48 + d mod 10). -/
def digitChar (d : Nat) : Char := Char.ofNat (48 + d % 10)

/-- The zero-padded two-digit numeric suffix produced by the split tool with
numeric suffixes of length two. -/
def suffix2 (i : Nat) : String := String.mk [digitChar (i / 10), digitChar i]

/-- Name of the i-th chunk file produced by splitting. -/
def chunkName (cfg : Config) (name : String) (i : Nat) : String :=
  name ++ cfg.EXT ++ "." ++ suffix2 i

/-- The verbose stdout of the split tool: one creating-file line, ended by a
newline, per produced chunk. -/
def splitVerboseLines (outName : String) (k : Nat) : List Char :=
  ((List.range k).map
    (fun i => ("creating file ").data ++ outName.data ++ (suffix2 i).data ++ ['\n'])).flatten

/-- Python str.split over the newline separator. -/
def pySplitOnNl : List Char → List (List Char)
  | [] => [[]]
  | c :: cs =>
    match pySplitOnNl cs with
    | [] => [[]]
    | h :: t => if c = '\n' then [] :: h :: t else (c :: h) :: t

/-- GuardObj.splitIfShouldSplit: invalid-state error when not encrypted;
when the recorded pre-encryption size exceeds SPLITLIMIT, runs the split
tool on the ciphertext file (chunks of SPLITLIMIT megabytes, two-digit
numeric suffixes), counts the pieces as the number of newline-separated
parts of the verbose output minus one, deletes the combined ciphertext file
and returns the piece count; otherwise returns 1. -/
def GuardObj.splitIfShouldSplit (g : GuardObj) (cfg : Config) (fs : FS) :
    Except String (Nat × FS) :=
  if g.isEncrypted = false then
    Except.error "File has not been encrypted yet"
  else if g.fileSize > (cfg.SPLITLIMIT : ℚ) then
    match fsLookup fs (g.fileName ++ cfg.EXT) with
    | none => Except.error "split failed"
    | some b =>
      let chunkBytes := cfg.SPLITLIMIT * 1048576
      let k := (b + chunkBytes - 1) / chunkBytes
      let stdout := splitVerboseLines (g.fileName ++ cfg.EXT ++ ".") k
      let pieces := (pySplitOnNl stdout).length - 1
      let fs1 := ((List.range k).map
        (fun i => (chunkName cfg g.fileName i, min chunkBytes (b - i * chunkBytes)))) ++ fs
      Except.ok (pieces, fsRemove fs1 (g.fileName ++ cfg.EXT))
  else
    Except.ok (1, fs)

/-- GuardObj.rename: moves name+EXT to newName+EXT; on success the stored
name is updated, on an mv failure (missing source) the exception leaves the
unit unchanged. -/
def GuardObj.rename (g : GuardObj) (cfg : Config) (newName : String) (fs : FS) :
    GuardObj × FS × Bool :=
  match fsLookup fs (g.fileName ++ cfg.EXT) with
  | none => (g, fs, false)
  | some b =>
    ({ g with fileName := newName },
      fsInsert (fsRemove fs (g.fileName ++ cfg.EXT)) (newName ++ cfg.EXT) b, true)

/-- Python round to an integer, half to even. -/
def roundHalfEven (q : ℚ) : ℤ :=
  let f := ⌊q⌋
  if q - f < 1 / 2 then f
  else if q - f > 1 / 2 then f + 1
  else if f % 2 = 0 then f else f + 1

/-- Python round(x, 2). -/
def pyRound2 (q : ℚ) : ℚ := (roundHalfEven (q * 100) : ℚ) / 100

/-- GuardObj.getSize: the rounded file size. -/
def GuardObj.getSize (g : GuardObj) : ℚ := pyRound2 g.fileSize

/-- GuardObj.getKey: invalid-state error when not encrypted, else the stored
key. -/
def GuardObj.getKey (g : GuardObj) : Except String (Option String) :=
  if g.isEncrypted = false then Except.error "File has not been encrypted yet"
  else Except.ok g.key

/-- GuardObj.getExtension. -/
def GuardObj.getExtension (g : GuardObj) : String := g.extension

/-- totalFileSize: the running sum of the rounded sizes of the units. -/
def totalFileSize (l : List GuardObj) : ℚ :=
  l.foldl (fun acc g => acc + g.getSize) 0

/-- The cipher names accepted by platformValidation. -/
def supportedCiphers : List String :=
  ["IDEA", "3DES", "CAST5", "BLOWFISH", "AES", "AES192", "AES256", "TWOFISH",
   "CAMELLIA128", "CAMELLIA192", "CAMELLIA256"]

/-- The digest names accepted by platformValidation. -/
def supportedDigests : List String :=
  ["SHA1", "RIPEMD160", "SHA256", "SHA384", "SHA512", "SHA224"]

/-- platformValidation: the startup checks, in source order, each failing
check overwriting the status variable.  The host platform, the gpg exit
flag and the gpg version stdout are oracle parameters. -/
def platformValidation (cfg : Config) (pl : String) (gpgOk : Bool) (ver : String) : Nat :=
  let s1 := if pl ≠ "linux" then 1 else 0
  let s2 := if gpgOk = false then 2 else s1
  let s3 := if pySlice0 14 ver ≠ "gpg (GnuPG) 2." then 3 else s2
  let s4 := if cfg.PASSLENGTH < 10 then 4 else s3
  let s5 := if cfg.CIPHER ∉ supportedCiphers then 5 else s4
  let s6 := if cfg.DIGEST ∉ supportedDigests then 6 else s5
  if cfg.EXT.length < 1 then 7 else s6

/-- The individual conditions of platformValidation, indexed by the status
code each would assign. -/
def checkFails (cfg : Config) (pl : String) (gpgOk : Bool) (ver : String) (i : Nat) : Bool :=
  if i = 1 then decide (pl ≠ "linux")
  else if i = 2 then decide (gpgOk = false)
  else if i = 3 then decide (pySlice0 14 ver ≠ "gpg (GnuPG) 2.")
  else if i = 4 then decide (cfg.PASSLENGTH < 10)
  else if i = 5 then decide (cfg.CIPHER ∉ supportedCiphers)
  else if i = 6 then decide (cfg.DIGEST ∉ supportedDigests)
  else if i = 7 then decide (cfg.EXT.length < 1)
  else false

/-- One entry of the working directory listing, with the isfile test result. -/
structure DirEntry where
  name : String
  isFile : Bool

/-- The inventory comprehension of the orchestrator: keep the regular files
whose last three characters are in DETECTEDFILETYPES. -/
def fileNameList (cfg : Config) (dir : List DirEntry) : List String :=
  (dir.filter
    (fun e => e.isFile && cfg.DETECTEDFILETYPES.contains (pySliceLast3 e.name))).map
    (fun e => e.name)

/-- How a run of the encryption stage ends. -/
inductive RunEnd
  | completed
  | quitEarly
  | keysShownQuit
  | blockedPrompt

/-- The recovery sub-loop entered after a gpg failure: consume prompts until
a q quits, a v prints the captured keys and quits, and exhausted input
leaves the program blocked at the prompt. -/
def recoveryLoop : List String → RunEnd
  | [] => RunEnd.blockedPrompt
  | s :: rest =>
    if s = "q" then RunEnd.quitEarly
    else if s = "v" then RunEnd.keysShownQuit
    else recoveryLoop rest

/-- Oracle for one gpg invocation: the random draws, the exit flag and the
ciphertext size. -/
structure EncEvent where
  rand : Nat → Nat
  gpgOk : Bool
  ctBytes : Nat

/-- The encryption loop of the orchestrator, processing the units from
index i on: each unit is encrypted in order; the first failure enters the
recovery sub-loop and the remaining units are left untouched. -/
def encryptAllFrom (cfg : Config) (ev : Nat → EncEvent) (inputs : List String) :
    Nat → List GuardObj → FS → List GuardObj × FS × RunEnd
  | _, [], fs => ([], fs, RunEnd.completed)
  | i, g :: gs, fs =>
    let r := g.encrypt cfg (ev i).rand (ev i).gpgOk (ev i).ctBytes fs
    if r.2.2 then
      let rest := encryptAllFrom cfg ev inputs (i + 1) gs r.2.1
      (r.1 :: rest.1, rest.2.1, rest.2.2)
    else
      (r.1 :: gs, r.2.1, recoveryLoop inputs)

/-- The whole encryption stage of the orchestrator. -/
def encryptAll (cfg : Config) (ev : Nat → EncEvent) (inputs : List String)
    (gs : List GuardObj) (fs : FS) : List GuardObj × FS × RunEnd :=
  encryptAllFrom cfg ev inputs 0 gs fs

/-- Unit states reachable through construction, encryption (with any oracle)
and renaming.  splitIfShouldSplit leaves the unit itself unchanged, so it
needs no constructor. -/
inductive Reachable : GuardObj → Prop
  | init (name : String) (bytes : Nat) : Reachable (GuardObj.init name bytes)
  | encryptStep (cfg : Config) (g : GuardObj) (rand : Nat → Nat) (ok : Bool)
      (ct : Nat) (fs : FS) : Reachable g → Reachable (g.encrypt cfg rand ok ct fs).1
  | renameStep (cfg : Config) (g : GuardObj) (nm : String) (fs : FS) :
      Reachable g → Reachable (g.rename cfg nm fs).1

/-- Concrete encrypted unit of two and a half megabytes, a witness fixture. -/
def gSplitW : GuardObj :=
  { fileName := "a.bmp", extension := "bmp", fileSize := 5 / 2, key := some "k",
    isEncrypted := true }

/-- Directory holding the matching ciphertext file, a witness fixture. -/
def fsSplitW : FS := [("a.bmp.enc", 2621440)]

/-- Concrete encrypted unit of half a megabyte, a witness fixture. -/
def gSmallW : GuardObj :=
  { fileName := "b.bmp", extension := "bmp", fileSize := 1 / 2, key := some "k",
    isEncrypted := true }

/-- Three freshly constructed units, a witness fixture. -/
def gsW : List GuardObj :=
  [GuardObj.init "a.bmp" 100, GuardObj.init "b.bmp" 100, GuardObj.init "c.bmp" 100]

/-- Oracle where the second gpg invocation fails, a witness fixture. -/
def evW : Nat → EncEvent := fun i =>
  if i = 1 then { rand := fun _ => 0, gpgOk := false, ctBytes := 0 }
  else { rand := fun _ => 0, gpgOk := true, ctBytes := 100 }

/-- Operator input after the failure, a witness fixture. -/
def inputsW : List String := ["x", "q"]

/-! ### Helper lemmas -/

lemma pyChoice_mem (l : List Char) (hl : l ≠ []) (r : Nat) : pyChoice l r ∈ l := by
  unfold pyChoice
  have hlt : r % l.length < l.length := Nat.mod_lt _ (List.length_pos.2 hl)
  rw [List.getD_eq_getElem l ' ' hlt]
  exact List.getElem_mem hlt

lemma lastDotIdx_eq_none (l : List Char) (h : '.' ∉ l) : lastDotIdx l = none := by
  induction l with
  | nil => rfl
  | cons c cs ih =>
    simp only [List.mem_cons, not_or] at h
    have hc : ¬ c = '.' := fun hh => h.1 hh.symm
    simp [lastDotIdx, ih h.2, hc]

/-! ### Claim C6 -/

/-- Claim C6: with the unit not yet encrypted, getKey and splitIfShouldSplit
both fail with the invalid-state error; once encrypted, getKey returns the
stored passphrase without error. -/
theorem claim6_invalid_state (cfg : Config) (g : GuardObj) (fs : FS) :
    (g.isEncrypted = false →
      g.getKey = Except.error "File has not been encrypted yet" ∧
      g.splitIfShouldSplit cfg fs = Except.error "File has not been encrypted yet") ∧
    (g.isEncrypted = true → g.getKey = Except.ok g.key) := by
  refine ⟨fun h => ⟨?_, ?_⟩, fun h => ?_⟩
  · simp [GuardObj.getKey, h]
  · simp [GuardObj.splitIfShouldSplit, h]
  · simp [GuardObj.getKey, h]

/-- Witness for claim C6, at a fresh unit for archive.zip and at a concrete
encrypted unit. -/
theorem claim6_witness :
    ((GuardObj.init "archive.zip" 7).isEncrypted = false ∧
      (GuardObj.init "archive.zip" 7).getKey =
        Except.error "File has not been encrypted yet" ∧
      (GuardObj.init "archive.zip" 7).splitIfShouldSplit defaultConfig [] =
        Except.error "File has not been encrypted yet") ∧
    (gSplitW.isEncrypted = true ∧ gSplitW.getKey = Except.ok gSplitW.key) :=
  ⟨⟨rfl, (claim6_invalid_state defaultConfig (GuardObj.init "archive.zip" 7) []).1 rfl⟩,
   rfl, (claim6_invalid_state defaultConfig gSplitW []).2 rfl⟩

/-! ### Claim C10 -/

/-- Claim C10: a file name without a dot is recorded whole as the extension,
and getExtension returns the whole name. -/
theorem claim10_dotless_extension (name : String) (bytes : Nat) (h : '.' ∉ name.data) :
    (GuardObj.init name bytes).extension = name ∧
    (GuardObj.init name bytes).getExtension = name := by
  obtain ⟨d⟩ := name
  have he : pyExtension (String.mk d) = String.mk d := by
    unfold pyExtension pyRfindDot
    rw [lastDotIdx_eq_none d h]
    rfl
  exact ⟨by simp [GuardObj.init, he], by simp [GuardObj.getExtension, GuardObj.init, he]⟩

/-- Witness for claim C10 at the dotless name archive. -/
theorem claim10_witness :
    '.' ∉ "archive".data ∧ (GuardObj.init "archive" 7).extension = "archive" ∧
      (GuardObj.init "archive" 7).getExtension = "archive" :=
  ⟨by decide, (claim10_dotless_extension "archive" 7 (by decide)).1,
    (claim10_dotless_extension "archive" 7 (by decide)).2⟩

/-! ### Claim C8 -/

/-- Claim C8: every generated passphrase has length PASSLENGTH and draws all
its characters from the alphanumeric alphabet; that alphabet consists of
letters and digits only. -/
theorem claim8_passphrase_wellformed (cfg : Config) (rand : Nat → Nat) :
    (genPassword cfg rand).length = cfg.PASSLENGTH ∧
    (∀ ch ∈ (genPassword cfg rand).data, ch ∈ alphabet) ∧
    (∀ ch ∈ alphabet, (ch.isAlpha || ch.isDigit) = true) ∧
    (∀ (g : GuardObj) (ok : Bool) (ct : Nat) (fs : FS),
      (g.encrypt cfg rand ok ct fs).1.key = some (genPassword cfg rand)) := by
  refine ⟨?_, ?_, by decide, fun g ok ct fs => by cases ok <;> rfl⟩
  · show ((List.range cfg.PASSLENGTH).map (fun i => pyChoice alphabet (rand i))).length
      = cfg.PASSLENGTH
    simp
  · intro ch hch
    have hch' : ch ∈ (List.range cfg.PASSLENGTH).map (fun i => pyChoice alphabet (rand i)) :=
      hch
    obtain ⟨i, _, rfl⟩ := List.mem_map.1 hch'
    exact pyChoice_mem alphabet (by decide) (rand i)

/-! ### Claim C7 -/

/-- Claim C7: an encrypted unit whose recorded size is at most the split
threshold is not split: the directory is untouched and the sentinel 1 is
returned. -/
theorem claim7_not_split (cfg : Config) (g : GuardObj) (fs : FS)
    (henc : g.isEncrypted = true)
    (hsmall : g.fileSize ≤ (cfg.SPLITLIMIT : ℚ)) :
    g.splitIfShouldSplit cfg fs = Except.ok (1, fs) := by
  simp [GuardObj.splitIfShouldSplit, henc, not_lt.mpr hsmall]

lemma gSmallW_le_limit : gSmallW.fileSize ≤ (defaultConfig.SPLITLIMIT : ℚ) := by
  norm_num [gSmallW, defaultConfig]

/-- Witness for claim C7 at a half-megabyte encrypted unit. -/
theorem claim7_witness :
    gSmallW.isEncrypted = true ∧
    gSmallW.splitIfShouldSplit defaultConfig [("b.bmp.enc", 524288)] =
      Except.ok (1, [("b.bmp.enc", 524288)]) :=
  ⟨rfl, claim7_not_split defaultConfig gSmallW [("b.bmp.enc", 524288)] rfl gSmallW_le_limit⟩

/-! ### Claim C1 -/

/-- Claim C1 (amended): in every reachable unit state, an encrypted unit
holds a passphrase; but after an encrypt call in which the tool fails, the
unit keeps the freshly generated passphrase in its key field while the
encrypted flag is left unchanged, so the if-and-only-if of the original
claim fails in that direction. -/
theorem claim1_key_invariant_amended :
    (∀ g : GuardObj, Reachable g → g.isEncrypted = true → g.key ≠ none) ∧
    (∀ (cfg : Config) (g : GuardObj) (rand : Nat → Nat) (ct : Nat) (fs : FS),
      (g.encrypt cfg rand false ct fs).1.isEncrypted = g.isEncrypted ∧
      (g.encrypt cfg rand false ct fs).1.key = some (genPassword cfg rand)) := by
  constructor
  · intro g hg
    induction hg with
    | init name bytes => intro h; simp [GuardObj.init] at h
    | encryptStep cfg g rand ok ct fs hr ih =>
      intro h
      cases ok <;> simp [GuardObj.encrypt]
    | renameStep cfg g nm fs hr ih =>
      intro h
      cases hfs : fsLookup fs (g.fileName ++ cfg.EXT) <;>
        simp only [GuardObj.rename, hfs] at h ⊢ <;> exact ih h
  · intro cfg g rand ct fs
    exact ⟨rfl, rfl⟩

/-- Counterexample to claim C1 as stated: after a failed encrypt of a fresh
unit, the unit holds a passphrase although it is not encrypted. -/
theorem claim1_counterexample :
    ((GuardObj.init "a.bmp" 100).encrypt defaultConfig (fun _ => 0) false 0 []).1.key ≠ none ∧
    ((GuardObj.init "a.bmp" 100).encrypt defaultConfig
      (fun _ => 0) false 0 []).1.isEncrypted = false :=
  ⟨by decide, rfl⟩

/-- Witness for claim C1 at a successfully encrypted reachable unit. -/
theorem claim1_witness :
    ((GuardObj.init "b.bmp" 100).encrypt defaultConfig
      (fun _ => 1) true 50 []).1.isEncrypted = true ∧
    ((GuardObj.init "b.bmp" 100).encrypt defaultConfig (fun _ => 1) true 50 []).1.key ≠ none :=
  ⟨rfl, claim1_key_invariant_amended.1 _
    (Reachable.encryptStep defaultConfig _ (fun _ => 1) true 50 []
      (Reachable.init "b.bmp" 100)) rfl⟩

/-! ### Claim C3 -/

/-- Claim C3 is violated by the code: the inventory comparison takes the
last three characters of the name, so the configured two-character type 7z
never matches a name ending in dot 7z, while a dotless name ending in bmp is
matched.  The theorem evaluates the scanner at both inputs. -/
theorem claim3_code_evaluation :
    fileNameList defaultConfig
      [{ name := "a.7z", isFile := true }, { name := "xbmp", isFile := true }] = ["xbmp"] ∧
    "7z" ∈ defaultConfig.DETECTEDFILETYPES ∧
    pySliceLast3 "a.7z" = ".7z" :=
  ⟨by decide, by decide, by decide⟩

/-! ### Claim C2 -/

/-- Claim C2 (amended): the validation checks are evaluated in the fixed
source order but without short-circuit; each failing check overwrites the
status, so the LAST failing check determines the returned outcome, and 0 is
returned exactly when no check fails.  In particular a version mismatch
yields code 3 only when the passphrase-length, cipher, digest and extension
checks all pass. -/
theorem claim2_last_failure_wins (cfg : Config) (pl : String) (gpgOk : Bool) (ver : String) :
    (∀ i, 1 ≤ i → i ≤ 7 → checkFails cfg pl gpgOk ver i = true →
      (∀ j, j ≤ 7 → i < j → checkFails cfg pl gpgOk ver j = false) →
      platformValidation cfg pl gpgOk ver = i) ∧
    ((∀ j, j ≤ 7 → checkFails cfg pl gpgOk ver j = false) →
      platformValidation cfg pl gpgOk ver = 0) := by
  constructor
  · intro i h1 h7 hi hj
    interval_cases i
    · have c2 := hj 2 (by norm_num) (by norm_num)
      have c3 := hj 3 (by norm_num) (by norm_num)
      have c4 := hj 4 (by norm_num) (by norm_num)
      have c5 := hj 5 (by norm_num) (by norm_num)
      have c6 := hj 6 (by norm_num) (by norm_num)
      have c7 := hj 7 (by norm_num) (by norm_num)
      simp [checkFails] at hi c2 c3 c4 c5 c6 c7
      simp [platformValidation, hi, c2, c3, c4, c5, c6, c7]
    · have c3 := hj 3 (by norm_num) (by norm_num)
      have c4 := hj 4 (by norm_num) (by norm_num)
      have c5 := hj 5 (by norm_num) (by norm_num)
      have c6 := hj 6 (by norm_num) (by norm_num)
      have c7 := hj 7 (by norm_num) (by norm_num)
      simp [checkFails] at hi c3 c4 c5 c6 c7
      simp [platformValidation, hi, c3, c4, c5, c6, c7]
    · have c4 := hj 4 (by norm_num) (by norm_num)
      have c5 := hj 5 (by norm_num) (by norm_num)
      have c6 := hj 6 (by norm_num) (by norm_num)
      have c7 := hj 7 (by norm_num) (by norm_num)
      simp [checkFails] at hi c4 c5 c6 c7
      simp [platformValidation, hi, c4, c5, c6, c7]
    · have c5 := hj 5 (by norm_num) (by norm_num)
      have c6 := hj 6 (by norm_num) (by norm_num)
      have c7 := hj 7 (by norm_num) (by norm_num)
      simp [checkFails] at hi c5 c6 c7
      simp [platformValidation, hi, c5, c6, c7]
    · have c6 := hj 6 (by norm_num) (by norm_num)
      have c7 := hj 7 (by norm_num) (by norm_num)
      simp [checkFails] at hi c6 c7
      simp [platformValidation, hi, c6, c7]
    · have c7 := hj 7 (by norm_num) (by norm_num)
      simp [checkFails] at hi c7
      simp [platformValidation, hi, c7]
    · simp [checkFails] at hi
      simp [platformValidation, hi]
  · intro hz
    have c1 := hz 1 (by norm_num)
    have c2 := hz 2 (by norm_num)
    have c3 := hz 3 (by norm_num)
    have c4 := hz 4 (by norm_num)
    have c5 := hz 5 (by norm_num)
    have c6 := hz 6 (by norm_num)
    have c7 := hz 7 (by norm_num)
    simp [checkFails] at c1 c2 c3 c4 c5 c6 c7
    simp [platformValidation, c1, c2, c3, c4, c5, c6, c7]

/-- Counterexample to claim C2 as stated: with the default configuration
weakened to a five-character passphrase length, a version-one tool string
fails the version check (code 3 per the claim) but the validation returns
the passphrase-length code 4, because the later failing check overwrites
the earlier one. -/
theorem claim2_counterexample :
    checkFails lowPassConfig "linux" true "gpg (GnuPG) 1.4.10" 3 = true ∧
    platformValidation lowPassConfig "linux" true "gpg (GnuPG) 1.4.10" = 4 ∧
    platformValidation lowPassConfig "linux" true "gpg (GnuPG) 1.4.10" ≠ 3 :=
  ⟨by decide, by decide, by decide⟩

/-- Witness for claim C2: a version mismatch with all later checks passing
does return code 3. -/
theorem claim2_witness :
    checkFails defaultConfig "linux" true "gpg (GnuPG) 1.4.10" 3 = true ∧
    platformValidation defaultConfig "linux" true "gpg (GnuPG) 1.4.10" = 3 :=
  ⟨by decide,
    (claim2_last_failure_wins defaultConfig "linux" true "gpg (GnuPG) 1.4.10").1 3
      (by norm_num) (by norm_num) (by decide) (by decide)⟩

/-! ### Claim C9 -/

lemma foldl_add_getSize (l : List GuardObj) :
    ∀ a : ℚ, l.foldl (fun acc g => acc + g.getSize) a
      = a + (l.map (fun g => pyRound2 g.fileSize)).sum := by
  induction l with
  | nil => intro a; simp
  | cons g l ih =>
    intro a
    rw [List.foldl_cons, ih]
    simp only [List.map_cons, List.sum_cons, GuardObj.getSize]
    ring

/-- Claim C9: the reported total is the sum of the per-unit sizes each
rounded to two decimal places before summation; at a concrete pair of units
this differs from rounding the raw total once. -/
theorem claim9_total_rounded_sum :
    (∀ l : List GuardObj, totalFileSize l = (l.map (fun g => pyRound2 g.fileSize)).sum) ∧
    totalFileSize [GuardObj.init "a.bmp" 5000, GuardObj.init "b.bmp" 5000] = 0 ∧
    pyRound2 ((GuardObj.init "a.bmp" 5000).fileSize + (GuardObj.init "b.bmp" 5000).fileSize)
      = 1 / 100 := by
  have h1 : pyRound2 ((5000 : ℚ) / 1048576) = 0 := by
    have hf : ⌊(5000 : ℚ) / 1048576 * 100⌋ = 0 :=
      Int.floor_eq_iff.mpr ⟨by norm_num, by norm_num⟩
    unfold pyRound2 roundHalfEven
    rw [hf]
    norm_num
  have h2 : pyRound2 ((5000 : ℚ) / 1048576 + (5000 : ℚ) / 1048576) = 1 / 100 := by
    have hf : ⌊((5000 : ℚ) / 1048576 + (5000 : ℚ) / 1048576) * 100⌋ = 0 :=
      Int.floor_eq_iff.mpr ⟨by norm_num, by norm_num⟩
    unfold pyRound2 roundHalfEven
    rw [hf]
    norm_num
  refine ⟨?_, ?_, ?_⟩
  · intro l
    unfold totalFileSize
    rw [foldl_add_getSize]
    ring
  · unfold totalFileSize
    rw [foldl_add_getSize]
    simp only [List.map_cons, List.map_nil, List.sum_cons, List.sum_nil, GuardObj.init]
    rw [show (((5000 : ℕ) : ℚ)) = (5000 : ℚ) by norm_num, h1]
    ring
  · have hcast : (GuardObj.init "a.bmp" 5000).fileSize = (5000 : ℚ) / 1048576 := by
      simp [GuardObj.init]
    have hcast2 : (GuardObj.init "b.bmp" 5000).fileSize = (5000 : ℚ) / 1048576 := by
      simp [GuardObj.init]
    rw [hcast, hcast2, h2]

/-! ### Helper lemmas for splitting -/

lemma pySplitOnNl_ne_nil (l : List Char) : pySplitOnNl l ≠ [] := by
  cases l with
  | nil => simp [pySplitOnNl]
  | cons c cs =>
    cases h : pySplitOnNl cs with
    | nil => simp [pySplitOnNl, h]
    | cons x t =>
      by_cases hc : c = '\n' <;> simp [pySplitOnNl, h, hc]

lemma pySplitOnNl_length (l : List Char) :
    (pySplitOnNl l).length = l.count '\n' + 1 := by
  induction l with
  | nil => simp [pySplitOnNl]
  | cons c cs ih =>
    cases h : pySplitOnNl cs with
    | nil => exact absurd h (pySplitOnNl_ne_nil cs)
    | cons x t =>
      rw [h] at ih
      simp only [List.length_cons] at ih
      by_cases hc : c = '\n'
      · subst hc
        simp [pySplitOnNl, h, List.count_cons]
        omega
      · simp [pySplitOnNl, h, hc, List.count_cons]
        omega

lemma digitChar_ne_nl (d : Nat) : digitChar d ≠ '\n' := by
  unfold digitChar
  have h : d % 10 < 10 := Nat.mod_lt d (by norm_num)
  revert h
  generalize d % 10 = e
  intro h
  interval_cases e <;> decide

lemma count_nl_suffix2 (i : Nat) : (suffix2 i).data.count '\n' = 0 := by
  show List.count '\n' [digitChar (i / 10), digitChar i] = 0
  rw [List.count_eq_zero]
  intro h
  simp only [List.mem_cons, List.not_mem_nil, or_false] at h
  rcases h with h | h
  · exact digitChar_ne_nl (i / 10) h.symm
  · exact digitChar_ne_nl i h.symm

lemma splitVerboseLines_count (nm : String) (k : Nat) (h : '\n' ∉ nm.data) :
    (splitVerboseLines nm k).count '\n' = k := by
  unfold splitVerboseLines
  rw [List.count_flatten]
  have hnm : nm.data.count '\n' = 0 := List.count_eq_zero.2 h
  have hline : ∀ i : Nat,
      (("creating file ").data ++ nm.data ++ (suffix2 i).data ++ ['\n']).count '\n' = 1 := by
    intro i
    rw [List.count_append, List.count_append, List.count_append, hnm, count_nl_suffix2]
    decide
  rw [List.map_map]
  have : (List.range k).map
      ((fun l => List.count '\n' l) ∘ fun i =>
        ("creating file ").data ++ nm.data ++ (suffix2 i).data ++ ['\n'])
      = (List.range k).map (fun _ => 1) := by
    apply List.map_congr_left
    intro i _
    exact hline i
  rw [this]
  simp [List.map_const']

lemma fsLookup_fsRemove_self (fs : FS) (n : String) :
    fsLookup (fsRemove fs n) n = none := by
  induction fs with
  | nil => rfl
  | cons e fs ih =>
    obtain ⟨m, b⟩ := e
    by_cases h : m = n
    · simp [fsRemove, h, ih]
    · simp [fsRemove, fsLookup, h, ih]

lemma fsLookup_fsRemove_ne (fs : FS) (n m : String) (h : m ≠ n) :
    fsLookup (fsRemove fs n) m = fsLookup fs m := by
  induction fs with
  | nil => rfl
  | cons e fs ih =>
    obtain ⟨q, b⟩ := e
    have hnm : ¬ n = m := fun hh => h hh.symm
    by_cases hq : q = n
    · have hqm : ¬ q = m := fun hh => h (by rw [← hh, hq])
      simp [fsRemove, fsLookup, hq, hqm, hnm, ih]
    · by_cases hm : q = m
      · simp [fsRemove, fsLookup, hq, hm, h]
      · simp [fsRemove, fsLookup, hq, hm, ih]

lemma fsLookup_append_ne_none (l fs : FS) (m : String) (b : Nat) (h : (m, b) ∈ l) :
    fsLookup (l ++ fs) m ≠ none := by
  induction l with
  | nil => simp at h
  | cons e l ih =>
    obtain ⟨q, v⟩ := e
    by_cases hq : q = m
    · simp [fsLookup, hq]
    · rcases List.mem_cons.1 h with h1 | h1
      · exact absurd (congrArg Prod.fst h1).symm hq
      · simpa [fsLookup, hq] using ih h1

lemma ceil_div_toNat (b c : Nat) (hb : 0 < b) (hc : 0 < c) :
    (⌈(b : ℚ) / (c : ℚ)⌉).toNat = (b + c - 1) / c := by
  have hcq : (0 : ℚ) < (c : ℚ) := by exact_mod_cast hc
  obtain ⟨q, hq⟩ : ∃ q, (b + c - 1) / c = q := ⟨_, rfl⟩
  rw [hq]
  have hdm := Nat.div_add_mod (b + c - 1) c
  rw [hq] at hdm
  have hmlt : (b + c - 1) % c < c := Nat.mod_lt _ hc
  have hq1 : 1 ≤ q := by rw [← hq]; exact (Nat.one_le_div_iff hc).2 (by omega)
  have hub : b ≤ c * q := by omega
  have hsplit : c * q = c * (q - 1) + c := by
    have h2 : q - 1 + 1 = q := Nat.sub_add_cancel hq1
    calc c * q = c * (q - 1 + 1) := by rw [h2]
      _ = c * (q - 1) + c := by ring
  have hlb : c * (q - 1) < b := by omega
  have hceil : ⌈(b : ℚ) / (c : ℚ)⌉ = (q : ℤ) := by
    rw [Int.ceil_eq_iff]
    constructor
    · rw [lt_div_iff₀ hcq]
      have hcast : (((q : ℤ) : ℚ)) - 1 = ((q - 1 : ℕ) : ℚ) := by
        rw [Nat.cast_sub hq1]
        push_cast
        ring
      rw [hcast]
      have hlb2 : (q - 1) * c < b := by rw [Nat.mul_comm]; exact hlb
      exact_mod_cast hlb2
    · rw [div_le_iff₀ hcq]
      have hub2 : b ≤ q * c := by rw [Nat.mul_comm]; exact hub
      exact_mod_cast hub2
  rw [hceil, Int.toNat_natCast]

lemma suffix2_length (i : Nat) : (suffix2 i).length = 2 := rfl

lemma chunkName_ne_combined (cfg : Config) (nm : String) (i : Nat) :
    chunkName cfg nm i ≠ nm ++ cfg.EXT := by
  intro h
  have hlen := congrArg String.length h
  rw [chunkName, String.length_append, String.length_append, String.length_append,
    suffix2_length] at hlen
  have hdot : ("." : String).length = 1 := rfl
  rw [hdot] at hlen
  omega

/-! ### Claim C4 -/

/-- Claim C4: splitting an encrypted unit whose recorded size exceeds the
threshold (with the ciphertext holding the recorded number of bytes)
produces the ceiling-quotient number of chunk files, named with the
zero-padded two-digit numeric suffixes from .00 on, returns that count, and
afterwards the combined ciphertext file no longer exists. -/
theorem claim4_split_chunk_count (cfg : Config) (g : GuardObj) (fs : FS) (b : Nat)
    (hcpos : 0 < cfg.SPLITLIMIT)
    (henc : g.isEncrypted = true)
    (hbig : g.fileSize > (cfg.SPLITLIMIT : ℚ))
    (hfile : fsLookup fs (g.fileName ++ cfg.EXT) = some b)
    (hsz : (b : ℚ) = g.fileSize * 1048576)
    (hnl : '\n' ∉ (g.fileName ++ cfg.EXT).data) :
    ∃ fs2,
      g.splitIfShouldSplit cfg fs =
        Except.ok
          ((⌈g.fileSize * 1048576 / ((cfg.SPLITLIMIT : ℚ) * 1048576)⌉).toNat, fs2) ∧
      (∀ i, i < (⌈g.fileSize * 1048576 / ((cfg.SPLITLIMIT : ℚ) * 1048576)⌉).toNat →
        fsLookup fs2 (chunkName cfg g.fileName i) ≠ none) ∧
      fsLookup fs2 (g.fileName ++ cfg.EXT ++ ".00") ≠ none ∧
      fsLookup fs2 (g.fileName ++ cfg.EXT) = none := by
  have hc0 : 0 < cfg.SPLITLIMIT * 1048576 := Nat.mul_pos hcpos (by norm_num)
  have hbc : cfg.SPLITLIMIT * 1048576 < b := by
    have hq : ((cfg.SPLITLIMIT * 1048576 : ℕ) : ℚ) < (b : ℚ) := by
      rw [hsz]
      push_cast
      exact (mul_lt_mul_right (by norm_num)).mpr hbig
    exact_mod_cast hq
  have hb0 : 0 < b := lt_of_le_of_lt (Nat.zero_le _) hbc
  have hkey : (⌈g.fileSize * 1048576 / ((cfg.SPLITLIMIT : ℚ) * 1048576)⌉).toNat
      = (b + cfg.SPLITLIMIT * 1048576 - 1) / (cfg.SPLITLIMIT * 1048576) := by
    have h1 : g.fileSize * 1048576 = (b : ℚ) := hsz.symm
    have h2 : ((cfg.SPLITLIMIT : ℚ) * 1048576) = ((cfg.SPLITLIMIT * 1048576 : ℕ) : ℚ) := by
      push_cast
      ring
    rw [h1, h2]
    exact ceil_div_toNat b (cfg.SPLITLIMIT * 1048576) hb0 hc0
  have hnm : '\n' ∉ (g.fileName ++ cfg.EXT ++ ".").data := by
    rw [String.data_append, List.mem_append]
    rintro (h1 | h1)
    · exact hnl h1
    · exact absurd h1 (by decide)
  have hk1 : 1 ≤ (b + cfg.SPLITLIMIT * 1048576 - 1) / (cfg.SPLITLIMIT * 1048576) :=
    (Nat.one_le_div_iff hc0).2 (by omega)
  have hmain : g.splitIfShouldSplit cfg fs
      = Except.ok ((b + cfg.SPLITLIMIT * 1048576 - 1) / (cfg.SPLITLIMIT * 1048576),
          fsRemove
            (((List.range
                ((b + cfg.SPLITLIMIT * 1048576 - 1) / (cfg.SPLITLIMIT * 1048576))).map
              (fun i => (chunkName cfg g.fileName i,
                min (cfg.SPLITLIMIT * 1048576) (b - i * (cfg.SPLITLIMIT * 1048576))))) ++ fs)
            (g.fileName ++ cfg.EXT)) := by
    simp [GuardObj.splitIfShouldSplit, henc, hfile, hbig, pySplitOnNl_length,
      splitVerboseLines_count _ _ hnm]
  rw [hkey]
  refine ⟨_, hmain, ?_, ?_, ?_⟩
  · intro i hi
    rw [fsLookup_fsRemove_ne _ _ _ (chunkName_ne_combined cfg g.fileName i)]
    exact fsLookup_append_ne_none _ fs _ _
      (List.mem_map.2 ⟨i, List.mem_range.2 hi, rfl⟩)
  · have h00eq : g.fileName ++ cfg.EXT ++ ".00" = chunkName cfg g.fileName 0 := by
      rw [chunkName, String.append_assoc (g.fileName ++ cfg.EXT)]
      rw [show ("." ++ suffix2 0 : String) = ".00" from by decide]
    rw [h00eq,
      fsLookup_fsRemove_ne _ _ _ (chunkName_ne_combined cfg g.fileName 0)]
    exact fsLookup_append_ne_none _ fs _ _
      (List.mem_map.2 ⟨0, List.mem_range.2 (by omega), rfl⟩)
  · exact fsLookup_fsRemove_self _ _

lemma gSplitW_big : gSplitW.fileSize > (defaultConfig.SPLITLIMIT : ℚ) := by
  norm_num [gSplitW, defaultConfig]

lemma gSplitW_bytes : ((2621440 : ℕ) : ℚ) = gSplitW.fileSize * 1048576 := by
  norm_num [gSplitW]

/-- Witness for claim C4 at a concrete two-and-a-half-megabyte unit and a
one-megabyte threshold. -/
theorem claim4_witness :
    (0 < defaultConfig.SPLITLIMIT ∧ gSplitW.isEncrypted = true ∧
      fsLookup fsSplitW (gSplitW.fileName ++ defaultConfig.EXT) = some 2621440 ∧
      '\n' ∉ (gSplitW.fileName ++ defaultConfig.EXT).data) ∧
    (∃ fs2,
      gSplitW.splitIfShouldSplit defaultConfig fsSplitW =
        Except.ok ((⌈gSplitW.fileSize * 1048576 /
          ((defaultConfig.SPLITLIMIT : ℚ) * 1048576)⌉).toNat, fs2) ∧
      (∀ i, i < (⌈gSplitW.fileSize * 1048576 /
          ((defaultConfig.SPLITLIMIT : ℚ) * 1048576)⌉).toNat →
        fsLookup fs2 (chunkName defaultConfig gSplitW.fileName i) ≠ none) ∧
      fsLookup fs2 (gSplitW.fileName ++ defaultConfig.EXT ++ ".00") ≠ none ∧
      fsLookup fs2 (gSplitW.fileName ++ defaultConfig.EXT) = none) :=
  ⟨⟨by decide, rfl, by decide, by decide⟩,
    claim4_split_chunk_count defaultConfig gSplitW fsSplitW 2621440
      (by decide) rfl gSplitW_big (by decide) gSplitW_bytes (by decide)⟩

/-! ### Claim C5 -/

lemma getD_isEncrypted_false (l : List GuardObj) (k : Nat)
    (h : ∀ x ∈ l, x.isEncrypted = false) : (l.getD k gdefault).isEncrypted = false := by
  induction l generalizing k with
  | nil => rfl
  | cons x l ih =>
    cases k with
    | zero => simpa using h x (List.mem_cons_self x l)
    | succ k' =>
      rw [List.getD_cons_succ]
      exact ih k' (fun y hy => h y (List.mem_cons_of_mem x hy))

lemma recoveryLoop_cases (ins : List String) :
    recoveryLoop ins = RunEnd.quitEarly ∨ recoveryLoop ins = RunEnd.keysShownQuit ∨
    recoveryLoop ins = RunEnd.blockedPrompt := by
  induction ins with
  | nil => right; right; rfl
  | cons s rest ih =>
    by_cases h1 : s = "q"
    · left
      simp [recoveryLoop, h1]
    · by_cases h2 : s = "v"
      · right; left
        simp [recoveryLoop, h1, h2]
      · simpa [recoveryLoop, h1, h2] using ih

lemma encryptAllFrom_failfast (cfg : Config) (ev : Nat → EncEvent) (inputs : List String) :
    ∀ (gs : List GuardObj) (i j : Nat) (fs : FS),
      j < gs.length →
      (ev (i + j)).gpgOk = false →
      (∀ m, m < j → (ev (i + m)).gpgOk = true) →
      (∀ g ∈ gs, g.isEncrypted = false) →
      (encryptAllFrom cfg ev inputs i gs fs).1.length = gs.length ∧
      (∀ k, j ≤ k →
        ((encryptAllFrom cfg ev inputs i gs fs).1.getD k gdefault).isEncrypted = false) ∧
      (∀ k, k < j →
        ((encryptAllFrom cfg ev inputs i gs fs).1.getD k gdefault).isEncrypted = true) ∧
      (encryptAllFrom cfg ev inputs i gs fs).2.2 = recoveryLoop inputs := by
  intro gs
  induction gs with
  | nil => intro i j fs hj; exact absurd hj (by simp)
  | cons g gs ih =>
    intro i j fs hj hfail hbefore hinit
    cases j with
    | zero =>
      have h0 : (ev i).gpgOk = false := by simpa using hfail
      have hred : encryptAllFrom cfg ev inputs i (g :: gs) fs
          = ({ g with key := some (genPassword cfg (ev i).rand) } :: gs, fs,
              recoveryLoop inputs) := by
        simp [encryptAllFrom, GuardObj.encrypt, h0]
      rw [hred]
      refine ⟨by simp, ?_, ?_, rfl⟩
      · intro k _
        cases k with
        | zero => simpa using hinit g (List.mem_cons_self g gs)
        | succ k' =>
          rw [List.getD_cons_succ]
          exact getD_isEncrypted_false gs k'
            (fun y hy => hinit y (List.mem_cons_of_mem g hy))
      · intro k hk
        exact absurd hk (Nat.not_lt_zero k)
    | succ m =>
      have h0 : (ev i).gpgOk = true := by simpa using hbefore 0 (Nat.succ_pos m)
      have hred : encryptAllFrom cfg ev inputs i (g :: gs) fs
          = ({ g with key := some (genPassword cfg (ev i).rand), isEncrypted := true }
              :: (encryptAllFrom cfg ev inputs (i + 1) gs
                  (fsInsert fs (g.fileName ++ cfg.EXT) (ev i).ctBytes)).1,
              (encryptAllFrom cfg ev inputs (i + 1) gs
                  (fsInsert fs (g.fileName ++ cfg.EXT) (ev i).ctBytes)).2.1,
              (encryptAllFrom cfg ev inputs (i + 1) gs
                  (fsInsert fs (g.fileName ++ cfg.EXT) (ev i).ctBytes)).2.2) := by
        simp [encryptAllFrom, GuardObj.encrypt, h0]
      have hfail' : (ev (i + 1 + m)).gpgOk = false := by
        rw [show i + 1 + m = i + (m + 1) by omega]
        exact hfail
      have hbefore' : ∀ m', m' < m → (ev (i + 1 + m')).gpgOk = true := by
        intro m' hm'
        rw [show i + 1 + m' = i + (m' + 1) by omega]
        exact hbefore (m' + 1) (by omega)
      have hinit' : ∀ y ∈ gs, y.isEncrypted = false :=
        fun y hy => hinit y (List.mem_cons_of_mem g hy)
      obtain ⟨ihlen, ihge, ihlt, ihend⟩ :=
        ih (i + 1) m (fsInsert fs (g.fileName ++ cfg.EXT) (ev i).ctBytes)
          (by simp only [List.length_cons] at hj; omega) hfail' hbefore' hinit'
      rw [hred]
      refine ⟨by simpa using ihlen, ?_, ?_, ihend⟩
      · intro k hk
        cases k with
        | zero => exact absurd hk (by omega)
        | succ k' =>
          rw [List.getD_cons_succ]
          exact ihge k' (by omega)
      · intro k hk
        cases k with
        | zero => rfl
        | succ k' =>
          rw [List.getD_cons_succ]
          exact ihlt k' (by omega)

/-- Claim C5: in the orchestrator encryption loop, when the gpg call of the
unit at position j fails with every earlier call succeeding, the units
before j end encrypted, the failing unit and every later unit end not
encrypted, and the stage hands over to the recovery sub-loop, whose only
outcomes are quitting, showing the captured keys and then quitting, or
blocking at the prompt — never a completed batch and never further
encryption. -/
theorem claim5_failure_aborts_batch (cfg : Config) (ev : Nat → EncEvent)
    (inputs : List String) (gs : List GuardObj) (fs : FS) (j : Nat)
    (hj : j < gs.length)
    (hfail : (ev j).gpgOk = false)
    (hbefore : ∀ m, m < j → (ev m).gpgOk = true)
    (hinit : ∀ g ∈ gs, g.isEncrypted = false) :
    (encryptAll cfg ev inputs gs fs).1.length = gs.length ∧
    (∀ k, j ≤ k →
      ((encryptAll cfg ev inputs gs fs).1.getD k gdefault).isEncrypted = false) ∧
    (∀ k, k < j →
      ((encryptAll cfg ev inputs gs fs).1.getD k gdefault).isEncrypted = true) ∧
    (encryptAll cfg ev inputs gs fs).2.2 = recoveryLoop inputs ∧
    (∀ ins : List String, recoveryLoop ins = RunEnd.quitEarly ∨
      recoveryLoop ins = RunEnd.keysShownQuit ∨
      recoveryLoop ins = RunEnd.blockedPrompt) := by
  have h := encryptAllFrom_failfast cfg ev inputs gs 0 j fs hj
    (by simpa using hfail) (fun m hm => by simpa using hbefore m hm) hinit
  exact ⟨h.1, h.2.1, h.2.2.1, h.2.2.2, recoveryLoop_cases⟩

/-- Witness for claim C5: three queued units, the second gpg call fails, so
the third unit is never encrypted and the run ends in the recovery loop. -/
theorem claim5_witness :
    (1 < gsW.length ∧ (evW 1).gpgOk = false ∧ (∀ m, m < 1 → (evW m).gpgOk = true) ∧
      (∀ g ∈ gsW, g.isEncrypted = false)) ∧
    ((encryptAll defaultConfig evW inputsW gsW []).1.length = gsW.length ∧
      (∀ k, 1 ≤ k →
        ((encryptAll defaultConfig evW inputsW gsW []).1.getD k gdefault).isEncrypted
          = false) ∧
      (∀ k, k < 1 →
        ((encryptAll defaultConfig evW inputsW gsW []).1.getD k gdefault).isEncrypted
          = true) ∧
      (encryptAll defaultConfig evW inputsW gsW []).2.2 = recoveryLoop inputsW ∧
      (∀ ins : List String, recoveryLoop ins = RunEnd.quitEarly ∨
        recoveryLoop ins = RunEnd.keysShownQuit ∨
        recoveryLoop ins = RunEnd.blockedPrompt)) :=
  ⟨⟨by decide, by decide, by decide, by decide⟩,
    claim5_failure_aborts_batch defaultConfig evW inputsW gsW [] 1
      (by decide) (by decide) (by decide) (by decide)⟩

end FPG
